import Mathlib

/-!
Verification development for the youtube_bangla transcript pipeline.

Shallow embedding of the core modules:
  * `src/transcript_api.py`  — `TranscriptFetcher.get_transcript`,
    `TranscriptFormatter.format_timestamped`
  * `src/mongodb_cache.py`   — `MongoDBCache` get/save operations and
    the degraded pass-through mode
  * `src/proxy_manager.py`   — `WebshareProxyManager.fetch_proxy_list`,
    `get_next_proxy`
  * `src/config.py`          — `Config.MAX_RETRY_ATTEMPTS`

Python strings are modelled as `List Char`; Python floats as `ℚ`
(the claims only use exact floor/mod arithmetic); datetimes as `Int`
seconds since an epoch.  Dictionary keys that may be absent become
`Option` fields.
-/

namespace YTB

namespace Config

/-- `Config.MAX_RETRY_ATTEMPTS = 5` (src/config.py line 73). -/
def MAX_RETRY_ATTEMPTS : Nat := 5

end Config

/-! ## TranscriptFormatter (src/transcript_api.py lines 156-213) -/

/-- One transcript snippet: `{'text': ..., 'start': ..., 'duration': ...}`.
Text is a Python string (list of chars), offsets are floats (ℚ). -/
structure TranscriptEntry where
  text : List Char
  start : ℚ
  duration : ℚ
deriving DecidableEq

/-- `int(timestamp // 60)`: Python float floor-division by 60, then `int`
(exact, since the floor-division result is integral). -/
def minutesOf (x : ℚ) : Int := ⌊x / 60⌋

/-- `int(timestamp % 60)`: Python float modulo has the sign of the divisor,
so `x % 60 = x - 60 * ⌊x / 60⌋ ∈ [0, 60)`; `int` truncates, which on a
non-negative value is the floor. -/
def secondsOf (x : ℚ) : Int := ⌊x - 60 * ⌊x / 60⌋⌋

/-- Decimal digit string of an integer, as Python `str(m)` renders it. -/
def intDigits (m : Int) : List Char :=
  if m < 0 then '-' :: Nat.toDigits 10 m.natAbs else Nat.toDigits 10 m.natAbs

/-- Python `f"{m:02d}"`: pad with a leading `'0'` to total width 2
(the sign counts toward the width). -/
def pad02 (m : Int) : List Char :=
  if (intDigits m).length < 2 then '0' :: intDigits m else intDigits m

/-- One rendered line `f"[{minutes:02d}:{seconds:02d}] {text}"`
(src/transcript_api.py line 176). -/
def renderLine (e : TranscriptEntry) : List Char :=
  ['['] ++ pad02 (minutesOf e.start) ++ [':'] ++ pad02 (secondsOf e.start)
    ++ [']', ' '] ++ e.text

/-- Python `"\n".join(lines)`. -/
def joinLines : List (List Char) → List Char
  | [] => []
  | [l] => l
  | l :: l2 :: ls => l ++ '\n' :: joinLines (l2 :: ls)

/-- `TranscriptFormatter.format_timestamped`: render every entry and join
with newlines (src/transcript_api.py lines 159-177). -/
def format_timestamped (transcript : List TranscriptEntry) : List Char :=
  joinLines (transcript.map renderLine)

/-- Helper for `splitlines`: `acc` holds the current (reversed) line. -/
def splitlinesAux : List Char → List Char → List (List Char)
  | [], acc => [acc.reverse]
  | c :: rest, acc =>
    if c = '\n' then
      acc.reverse :: (if rest.isEmpty then [] else splitlinesAux rest [])
    else
      splitlinesAux rest (c :: acc)

/-- Python `str.splitlines()` restricted to `'\n'` separators:
`splitlines "" = []`, `splitlines "a\nb" = ["a","b"]`,
`splitlines "a\n" = ["a"]`. -/
def splitlines (s : List Char) : List (List Char) :=
  if s.isEmpty then [] else splitlinesAux s []

/-- The regex `^\[\d{2}:\d{2}\] .*$` as a Boolean check on one line
(`.` does not match a newline). -/
def matchesTimestampLine : List Char → Bool
  | '[' :: d1 :: d2 :: ':' :: d3 :: d4 :: ']' :: ' ' :: rest =>
      d1.isDigit && d2.isDigit && d3.isDigit && d4.isDigit &&
        rest.all (fun c => c ≠ '\n')
  | _ => false

/-- Checks that a char list is exactly two decimal digits (the shape
`\d{2}` of one timestamp field). -/
def isDigitPair : List Char → Bool
  | [d1, d2] => d1.isDigit && d2.isDigit
  | _ => false

/-! ## TranscriptFetcher (src/transcript_api.py lines 15-153)

The upstream `YouTubeTranscriptApi.fetch` call is abstracted as an
oracle indexed by the attempt number and the request: `some lang`
models `api.fetch(video_id, languages=[lang])`, `none` models the
unqualified `api.fetch(video_id)`.  The video id is fixed by the
oracle.  A failure of `_create_api_instance` (proxy acquisition)
is covered by `otherError` on the attempt's first request. -/

/-- Outcome of one upstream fetch call. -/
inductive FetchOutcome where
  | ok (entries : List TranscriptEntry)
  | noTranscriptFound
  | transcriptsDisabled
  | otherError (msg : String)
deriving DecidableEq

/-- Mocked upstream: attempt number → requested language (`none` =
default track) → outcome. -/
def Oracle : Type := Nat → Option String → FetchOutcome

namespace TranscriptFetcher

/-- `TranscriptFetcher._check_if_generated` always returns `True`
(src/transcript_api.py lines 146-153). -/
def check_if_generated : Bool := true

/-- Result dictionary of `get_transcript`; `none` models an absent key. -/
structure TResult where
  success : Bool
  transcript : Option (List TranscriptEntry) := none
  language_code : Option String := none
  is_generated : Option Bool := none
  error : Option String := none
  attempts : Nat
deriving DecidableEq

/-- How one attempt's inner body ends: a successful return, or an
exception reaching one of the three outer `except` handlers. -/
inductive AttemptOutcome where
  | success (entries : List TranscriptEntry) (lang : String) (isGen : Bool)
  | exnNotFound
  | exnDisabled
  | exnOther (msg : String)
deriving DecidableEq

/-- The body of one attempt (src/transcript_api.py lines 66-116): walk the
language priority list, where the inner `try` catches only
`NoTranscriptFound` (continue to the next language); then the unqualified
fetch, whose `NoTranscriptFound` propagates to the outer handler. -/
def tryLanguages (o : Oracle) (attempt : Nat) : List String → AttemptOutcome
  | [] =>
    match o attempt none with
    | .ok es => .success es "unknown" true
    | .noTranscriptFound => .exnNotFound
    | .transcriptsDisabled => .exnDisabled
    | .otherError m => .exnOther m
  | lang :: rest =>
    match o attempt (some lang) with
    | .ok es => .success es lang check_if_generated
    | .noTranscriptFound => tryLanguages o attempt rest
    | .transcriptsDisabled => .exnDisabled
    | .otherError m => .exnOther m

/-- The final failure dictionary built after the retry loop exits
(src/transcript_api.py lines 140-144); `lastError = none` renders as
Python's `None`. -/
def exhaustedResult (maxRetries : Nat) (lastError : Option String) : TResult :=
  { success := false
    error := some ("Failed after " ++ toString maxRetries
      ++ " attempts. Last error: " ++ lastError.getD "None")
    attempts := maxRetries }

/-- The retry loop `for attempt in range(1, max_retries + 1)`
(src/transcript_api.py lines 63-137), instrumented with the number of
attempts actually executed and the number of 1-second backoff sleeps.
`fuel` is the number of loop iterations still permitted by the range;
the loop `continue`s only while `attempt < maxRetries and use_proxy`. -/
def goLoop (o : Oracle) (useProxy : Bool) (maxRetries : Nat)
    (langs : List String) :
    Nat → Nat → Option String → Nat → Nat → TResult × Nat × Nat
  | 0, _, lastError, performed, sleeps =>
    (exhaustedResult maxRetries lastError, performed, sleeps)
  | fuel + 1, attempt, _lastError, performed, sleeps =>
    match tryLanguages o attempt langs with
    | .success es lang gen =>
      ({ success := true, transcript := some es, language_code := some lang,
         is_generated := some gen, attempts := attempt },
       performed + 1, sleeps)
    | .exnNotFound =>
      ({ success := false, error := some "No transcript found",
         attempts := attempt }, performed + 1, sleeps)
    | .exnDisabled =>
      ({ success := false, error := some "Transcripts disabled",
         attempts := attempt }, performed + 1, sleeps)
    | .exnOther m =>
      if attempt < maxRetries ∧ useProxy then
        goLoop o useProxy maxRetries langs fuel (attempt + 1) (some m)
          (performed + 1) (sleeps + 1)
      else
        (exhaustedResult maxRetries (some m), performed + 1, sleeps)

/-- `TranscriptFetcher.get_transcript` plus instrumentation:
returns (result dictionary, attempts actually executed, backoff sleeps). -/
def get_transcript_instrumented (o : Oracle) (useProxy : Bool)
    (maxRetries : Nat) (langs : List String) : TResult × Nat × Nat :=
  goLoop o useProxy maxRetries langs maxRetries 1 none 0 0

/-- `TranscriptFetcher.get_transcript` (src/transcript_api.py
lines 46-144). -/
def get_transcript (o : Oracle) (useProxy : Bool) (maxRetries : Nat)
    (langs : List String) : TResult :=
  (get_transcript_instrumented o useProxy maxRetries langs).1

/-- The spec's `TranscriptResult` invariant: success implies a
non-empty entries sequence and no error field; failure implies no
entries. -/
def resultInvariant (r : TResult) : Prop :=
  (r.success = true →
    (∃ es, r.transcript = some es ∧ es ≠ []) ∧ r.error = none) ∧
  (r.success = false → r.transcript = none)

end TranscriptFetcher

/-! ## MongoDBCache (src/mongodb_cache.py)

The three time-series collections are modelled as lists of documents
carrying the `timestamp` field (Int seconds), the indexed `metadata`
fields, and an opaque `data` payload.  `datetime.utcnow()` is the
explicit `now` argument; `timedelta(days=d)` is `d * 86400`. -/

/-- A document of the `channels` collection. -/
structure ChannelDoc (A : Type) where
  timestamp : Int
  channel_id : String
  channel_name : Option String
  data : A
deriving DecidableEq

/-- A document of the `videos` collection. -/
structure VideoDoc (B : Type) where
  timestamp : Int
  video_id : String
  channel_id : String
  data : B
deriving DecidableEq

/-- A document of the `transcripts` collection. -/
structure TranscriptDoc (C : Type) where
  timestamp : Int
  video_id : String
  data : C
deriving DecidableEq

/-- The `MongoDBCache` object: the `enabled` flag plus the backing
collections it is connected to. -/
structure CacheState (A B C : Type) where
  enabled : Bool
  channels : List (ChannelDoc A)
  videos : List (VideoDoc B)
  transcripts : List (TranscriptDoc C)
deriving DecidableEq

/-- Seconds in one day (`timedelta(days=1)`). -/
def secondsPerDay : Int := 86400

/-- `find_one(query, sort=[('timestamp', -1)])` on an already-filtered
document list: a document of maximal timestamp, `none` when empty. -/
def findMostRecent {α : Type} (ts : α → Int) : List α → Option α
  | [] => none
  | x :: xs =>
    match findMostRecent ts xs with
    | none => some x
    | some y => if ts x < ts y then some y else some x

/-- `cursor.sort('timestamp', -1)` via insertion into a descending list. -/
def insertByTsDesc {α : Type} (ts : α → Int) (d : α) : List α → List α
  | [] => [d]
  | x :: xs =>
    if ts x ≤ ts d then d :: x :: xs else x :: insertByTsDesc ts d xs

/-- Sort a document list by timestamp, most recent first. -/
def sortByTsDesc {α : Type} (ts : α → Int) (l : List α) : List α :=
  l.foldr (insertByTsDesc ts) []

namespace MongoDBCache

/-- `MongoDBCache.__init__` (src/mongodb_cache.py lines 16-40):
`enabled = USE_MONGODB_CACHE and MONGODB_URI`; a failed connection
test latches `enabled = False`.  The collection contents model the
pre-existing external database. -/
def init {A B C : Type} (useCache uriSet connectionOk : Bool)
    (chs : List (ChannelDoc A)) (vids : List (VideoDoc B))
    (trs : List (TranscriptDoc C)) : CacheState A B C :=
  { enabled := useCache && uriSet && connectionOk
    channels := chs, videos := vids, transcripts := trs }

/-- `MongoDBCache.get_channel` (src/mongodb_cache.py lines 115-153):
query by id when given, else by name; restrict to documents at most
7 days old; return the `data` of the most recent match. -/
def get_channel {A B C : Type} (st : CacheState A B C) (now : Int)
    (channel_id channel_name : Option String) : Option A :=
  if !st.enabled then none
  else
    let cutoff := now - 7 * secondsPerDay
    match channel_id, channel_name with
    | some cid, _ =>
      (findMostRecent (fun d => d.timestamp)
        (st.channels.filter
          (fun d => d.channel_id = cid ∧ cutoff ≤ d.timestamp))).map
        (fun d => d.data)
    | none, some nm =>
      (findMostRecent (fun d => d.timestamp)
        (st.channels.filter
          (fun d => d.channel_name = some nm ∧ cutoff ≤ d.timestamp))).map
        (fun d => d.data)
    | none, none => none

/-- `MongoDBCache.get_videos` (src/mongodb_cache.py lines 197-235):
documents for the channel at most 1 day old, most recent first,
optionally limited; `None` when the result list is empty. -/
def get_videos {A B C : Type} (st : CacheState A B C) (now : Int)
    (channel_id : String) (max_results : Option Nat) : Option (List B) :=
  if !st.enabled then none
  else
    let cutoff := now - 1 * secondsPerDay
    let docs := st.videos.filter
      (fun d => d.channel_id = channel_id ∧ cutoff ≤ d.timestamp)
    let sorted := sortByTsDesc (fun d => d.timestamp) docs
    let limited := match max_results with
      | some k => sorted.take k
      | none => sorted
    let videos := limited.map (fun d => d.data)
    if videos.isEmpty then none else some videos

/-- `MongoDBCache.get_transcript` (src/mongodb_cache.py lines 282-311):
no staleness cutoff — the most recent document for the video id,
whatever its age. -/
def get_transcript {A B C : Type} (st : CacheState A B C)
    (video_id : String) : Option C :=
  if !st.enabled then none
  else
    (findMostRecent (fun d => d.timestamp)
      (st.transcripts.filter (fun d => d.video_id = video_id))).map
      (fun d => d.data)

/-- `MongoDBCache.save_channel` (src/mongodb_cache.py lines 155-193).
`getId`/`getTitle` model `channel_data.get('channel_id')` /
`channel_data.get('title')`; `none` payload models a falsy dict. -/
def save_channel {A B C : Type} (getId getTitle : A → Option String)
    (st : CacheState A B C) (now : Int) (channel_data : Option A) :
    Bool × CacheState A B C :=
  if !st.enabled then (false, st)
  else
    match channel_data with
    | none => (false, st)
    | some d =>
      match getId d with
      | none => (false, st)
      | some cid =>
        (true, { st with channels :=
          { timestamp := now, channel_id := cid,
            channel_name := getTitle d, data := d } :: st.channels })

/-- `MongoDBCache.save_videos` (src/mongodb_cache.py lines 237-278):
one document per video that has a `video_id`. -/
def save_videos {A B C : Type} (getVid : B → Option String)
    (st : CacheState A B C) (now : Int) (channel_id : String)
    (videos : List B) : Bool × CacheState A B C :=
  if !st.enabled then (false, st)
  else if videos.isEmpty then (false, st)
  else
    (true, { st with videos :=
      (videos.filterMap (fun v =>
        (getVid v).map (fun vid =>
          ({ timestamp := now, video_id := vid, channel_id := channel_id,
             data := v } : VideoDoc B)))) ++ st.videos })

/-- `MongoDBCache.save_transcript` (src/mongodb_cache.py lines 313-347). -/
def save_transcript {A B C : Type} (st : CacheState A B C) (now : Int)
    (video_id : String) (transcript_data : Option C) :
    Bool × CacheState A B C :=
  if !st.enabled then (false, st)
  else
    match transcript_data with
    | none => (false, st)
    | some d =>
      (true, { st with transcripts :=
        { timestamp := now, video_id := video_id, data := d } ::
          st.transcripts })

/-- `MongoDBCache.clear_old_cache` (src/mongodb_cache.py lines 372-393):
delete documents strictly older than the cutoff in every collection. -/
def clear_old_cache {A B C : Type} (st : CacheState A B C) (now : Int)
    (days : Int) : CacheState A B C :=
  if !st.enabled then st
  else
    let cutoff := now - days * secondsPerDay
    { st with
      channels := st.channels.filter (fun d => cutoff ≤ d.timestamp)
      videos := st.videos.filter (fun d => cutoff ≤ d.timestamp)
      transcripts := st.transcripts.filter (fun d => cutoff ≤ d.timestamp) }

end MongoDBCache

/-- A concrete enabled cache state, holding exactly one transcript
document stored 100 days (8 640 000 s) before the epoch; used to
instantiate the cache theorems. -/
def cacheW : CacheState String String String :=
  { enabled := true, channels := [], videos := [],
    transcripts := [{ timestamp := -8640000, video_id := "V1", data := "T" }] }

/-! ## WebshareProxyManager (src/proxy_manager.py)

`requests.get` on the Webshare list endpoint is abstracted as an
`HttpResponse` value; the local `.proxy_cache.json` file is the
`cacheFile` component of the state; `datetime.now()` is the explicit
`now` argument (Int seconds), `cache_duration` a span in seconds. -/

/-- A proxy in the manager's transformed format
(src/proxy_manager.py lines 65-76). -/
structure Proxy where
  host : String
  port : Nat
  username : String
  password : String
  country_code : String
  city : String
  valid : Bool
deriving DecidableEq

/-- One entry of the Webshare API JSON `results` list; `none` models an
absent optional key. -/
structure RawProxy where
  proxy_address : String
  port : Nat
  username : String
  password : String
  country_code : Option String
  city_name : Option String
  valid : Option Bool
deriving DecidableEq

/-- Outcome of the HTTP call in `fetch_proxy_list`: a 200 with parsed
results, a non-200 status code, or a `requests` transport exception. -/
inductive HttpResponse where
  | ok (results : List RawProxy)
  | status (code : Nat)
  | netError (msg : String)
deriving DecidableEq

/-- `WebshareProxyManager` mutable state: in-memory pool, round-robin
cursor, last fetch time, and the on-disk cache file contents. -/
structure PMState where
  proxies : List Proxy
  current_index : Nat
  last_fetch : Option Int
  cacheFile : Option (List Proxy × Int)
deriving DecidableEq

/-- The dictionary returned to callers by `get_next_proxy`
(src/proxy_manager.py lines 119-130). -/
structure ProxyDict where
  http : String
  https : String
  info_host : String
  info_country : String
  info_city : String
deriving DecidableEq

namespace WebshareProxyManager

/-- `WebshareProxyManager.__init__` with an empty pool and no previous
fetch; `file` is whatever `.proxy_cache.json` currently holds on disk. -/
def init (file : Option (List Proxy × Int)) : PMState :=
  { proxies := [], current_index := 0, last_fetch := none,
    cacheFile := file }

/-- `f"http://{username}:{password}@{host}:{port}"`. -/
def proxyUrl (p : Proxy) : String :=
  "http://" ++ p.username ++ ":" ++ p.password ++ "@" ++ p.host ++ ":"
    ++ toString p.port

/-- Format one proxy for the `requests` library
(src/proxy_manager.py lines 120-130). -/
def formatProxy (p : Proxy) : ProxyDict :=
  { http := proxyUrl p, https := proxyUrl p, info_host := p.host,
    info_country := p.country_code, info_city := p.city }

/-- Transform one API entry (src/proxy_manager.py lines 65-76),
with the `.get` defaults `'Unknown'` and `True`. -/
def transformProxy (r : RawProxy) : Proxy :=
  { host := r.proxy_address, port := r.port, username := r.username,
    password := r.password,
    country_code := r.country_code.getD "Unknown",
    city := r.city_name.getD "Unknown",
    valid := r.valid.getD true }

/-- `WebshareProxyManager._load_cache` (src/proxy_manager.py
lines 198-209): read the file, install its pool and fetch time, and
report whether the loaded pool is non-empty. -/
def load_cache (st : PMState) : Bool × PMState :=
  match st.cacheFile with
  | none => (false, st)
  | some (ps, t) =>
    (decide (0 < ps.length),
     { st with proxies := ps, last_fetch := some t })

/-- `WebshareProxyManager._save_cache` (src/proxy_manager.py
lines 186-196). -/
def save_cache (st : PMState) (now : Int) : PMState :=
  { st with cacheFile := some (st.proxies, now) }

/-- `WebshareProxyManager._is_cache_valid` (src/proxy_manager.py
lines 178-184); with no previous fetch it delegates to `_load_cache`,
which mutates the state. -/
def is_cache_valid (st : PMState) (now cacheDuration : Int) :
    Bool × PMState :=
  match st.last_fetch with
  | none => load_cache st
  | some t => (decide (now - t < cacheDuration), st)

/-- `WebshareProxyManager.fetch_proxy_list` (src/proxy_manager.py
lines 36-100): serve a valid cache unless forced; otherwise hit the
API — on 200 transform, keep only `valid` entries, stamp and persist;
on any non-200 status (401 included) return `[]` untouched; on a
transport error fall back to the file cache when it loads non-empty. -/
def fetch_proxy_list (resp : HttpResponse) (now cacheDuration : Int)
    (force_refresh : Bool) (st : PMState) : List Proxy × PMState :=
  let checked := if force_refresh then (false, st)
    else is_cache_valid st now cacheDuration
  if checked.1 then (checked.2.proxies, checked.2)
  else
    let st1 := checked.2
    match resp with
    | .ok results =>
      let ps := (results.map transformProxy).filter (fun p => p.valid)
      let st2 := save_cache
        { st1 with proxies := ps, last_fetch := some now } now
      (ps, st2)
    | .status _ => ([], st1)
    | .netError _ =>
      let loaded := load_cache st1
      if loaded.1 then (loaded.2.proxies, loaded.2) else ([], loaded.2)

/-- `WebshareProxyManager.get_next_proxy` (src/proxy_manager.py
lines 102-130): refill an empty pool via `fetch_proxy_list`, then
return the proxy under the cursor and advance the cursor mod the pool
size.  An out-of-range cursor (a Python `IndexError`) is modelled as
`none`. -/
def get_next_proxy (resp : HttpResponse) (now cacheDuration : Int)
    (st : PMState) : Option ProxyDict × PMState :=
  let st1 := if st.proxies.isEmpty then
      (fetch_proxy_list resp now cacheDuration false st).2
    else st
  if st1.proxies.isEmpty then (none, st1)
  else
    match st1.proxies[st1.current_index]? with
    | none => (none, st1)
    | some p =>
      (some (formatProxy p),
       { st1 with
         current_index := (st1.current_index + 1) % st1.proxies.length })

/-- State transformer of one `get_next_proxy` call. -/
def nextStep (resp : HttpResponse) (now cacheDuration : Int)
    (st : PMState) : PMState :=
  (get_next_proxy resp now cacheDuration st).2

end WebshareProxyManager

/-! ## Lemmas about the formatter -/

theorem splitlinesAux_cons_ne (c : Char) (hc : c ≠ '\n')
    (rest acc : List Char) :
    splitlinesAux (c :: rest) acc = splitlinesAux rest (c :: acc) := by
  simp [splitlinesAux, hc]

theorem splitlinesAux_append (l : List Char) (hl : ∀ c ∈ l, c ≠ '\n') :
    ∀ s acc : List Char,
      splitlinesAux (l ++ s) acc = splitlinesAux s (l.reverse ++ acc) := by
  induction l with
  | nil => intro s acc; simp
  | cons c l ih =>
    intro s acc
    have hc : c ≠ '\n' := hl c (List.mem_cons_self c l)
    have hl' : ∀ x ∈ l, x ≠ '\n' := fun x hx => hl x (List.mem_cons_of_mem c hx)
    rw [List.cons_append, splitlinesAux_cons_ne c hc, ih hl']
    simp

theorem splitlines_no_newline (l : List Char) (hne : l ≠ [])
    (hl : ∀ c ∈ l, c ≠ '\n') : splitlines l = [l] := by
  have h1 : splitlinesAux l [] = [l] := by
    have := splitlinesAux_append l hl [] []
    simpa [splitlinesAux] using this
  simp [splitlines, hne, h1]

theorem splitlines_append_newline (l t : List Char)
    (hl : ∀ c ∈ l, c ≠ '\n') (ht : t ≠ []) :
    splitlines (l ++ '\n' :: t) = l :: splitlines t := by
  have hne : l ++ '\n' :: t ≠ [] := by simp
  have h1 : splitlinesAux (l ++ '\n' :: t) [] = l :: splitlinesAux t [] := by
    rw [splitlinesAux_append l hl]
    simp [splitlinesAux, ht, List.isEmpty_iff]
  simp [splitlines, hne, ht, h1, List.isEmpty_iff]

theorem joinLines_cons_ne_nil (l : List Char) (ls : List (List Char))
    (hne : l ≠ []) : joinLines (l :: ls) ≠ [] := by
  cases ls with
  | nil => simpa [joinLines] using hne
  | cons l2 ls => simp [joinLines]

theorem splitlines_joinLines (ls : List (List Char))
    (h : ∀ l ∈ ls, l ≠ [] ∧ ∀ c ∈ l, c ≠ '\n') :
    splitlines (joinLines ls) = ls := by
  induction ls with
  | nil => simp [joinLines, splitlines]
  | cons l ls ih =>
    cases ls with
    | nil =>
      have hl := h l (List.mem_cons_self l [])
      simpa [joinLines] using splitlines_no_newline l hl.1 hl.2
    | cons l2 ls2 =>
      have hl := h l (List.mem_cons_self l (l2 :: ls2))
      have hrest : ∀ x ∈ l2 :: ls2, x ≠ [] ∧ ∀ c ∈ x, c ≠ '\n' :=
        fun x hx => h x (List.mem_cons_of_mem l hx)
      have hjoin : joinLines (l2 :: ls2) ≠ [] :=
        joinLines_cons_ne_nil l2 ls2 (hrest l2 (List.mem_cons_self l2 ls2)).1
      have : joinLines (l :: l2 :: ls2) = l ++ '\n' :: joinLines (l2 :: ls2) := by
        simp [joinLines]
      rw [this, splitlines_append_newline l _ hl.2 hjoin, ih hrest]

theorem pad02_digitPair : ∀ n : Nat, n < 100 →
    isDigitPair (pad02 (n : Int)) = true := by decide

theorem isDigitPair_shape (l : List Char) (h : isDigitPair l = true) :
    ∃ d1 d2, l = [d1, d2] ∧ d1.isDigit = true ∧ d2.isDigit = true := by
  match l, h with
  | [d1, d2], h =>
    have h' : d1.isDigit = true ∧ d2.isDigit = true := by
      simpa [isDigitPair, Bool.and_eq_true] using h
    exact ⟨d1, d2, rfl, h'.1, h'.2⟩

theorem isDigit_ne_newline (c : Char) (h : c.isDigit = true) : c ≠ '\n' := by
  intro hc
  subst hc
  simp [Char.isDigit] at h

theorem secondsOf_bounds (x : ℚ) : 0 ≤ secondsOf x ∧ secondsOf x < 60 := by
  have h1 : ((⌊x / 60⌋ : ℤ) : ℚ) ≤ x / 60 := Int.floor_le _
  have h2 : x / 60 < (⌊x / 60⌋ : ℤ) + 1 := Int.lt_floor_add_one _
  have hy0 : (0 : ℚ) ≤ x - 60 * (⌊x / 60⌋ : ℤ) := by nlinarith
  have hy1 : x - 60 * ((⌊x / 60⌋ : ℤ) : ℚ) < 60 := by nlinarith
  constructor
  · exact Int.le_floor.mpr (by exact_mod_cast hy0)
  · exact Int.floor_lt.mpr (by exact_mod_cast hy1)

theorem minutesOf_bounds (x : ℚ) (h0 : 0 ≤ x) (h1 : x < 6000) :
    0 ≤ minutesOf x ∧ minutesOf x < 100 := by
  constructor
  · exact Int.le_floor.mpr (by positivity)
  · refine Int.floor_lt.mpr ?_
    rw [div_lt_iff₀ (by norm_num : (0:ℚ) < 60)]
    push_cast
    linarith

theorem secondsOf_eq_floor_mod (x : ℚ) : secondsOf x = ⌊x⌋ % 60 := by
  have hfloor : secondsOf x = ⌊x⌋ - 60 * ⌊x / 60⌋ := by
    have : x - 60 * ((⌊x / 60⌋ : ℤ) : ℚ) = x - ((60 * ⌊x / 60⌋ : ℤ) : ℚ) := by
      push_cast; ring
    rw [secondsOf, this, Int.floor_sub_int]
  have hb := secondsOf_bounds x
  rw [hfloor] at hb ⊢
  omega

theorem renderLine_props (e : TranscriptEntry)
    (htext : ∀ c ∈ e.text, c ≠ '\n') (h0 : 0 ≤ e.start)
    (h1 : e.start < 6000) :
    matchesTimestampLine (renderLine e) = true ∧
      renderLine e ≠ [] ∧ ∀ c ∈ renderLine e, c ≠ '\n' := by
  have hm := minutesOf_bounds e.start h0 h1
  have hs := secondsOf_bounds e.start
  have hmn : ((minutesOf e.start).toNat : Int) = minutesOf e.start :=
    Int.toNat_of_nonneg hm.1
  have hsn : ((secondsOf e.start).toNat : Int) = secondsOf e.start :=
    Int.toNat_of_nonneg hs.1
  have hdm := pad02_digitPair (minutesOf e.start).toNat (by omega)
  have hds := pad02_digitPair (secondsOf e.start).toNat (by omega)
  rw [hmn] at hdm
  rw [hsn] at hds
  obtain ⟨d1, d2, hpm, hd1, hd2⟩ := isDigitPair_shape _ hdm
  obtain ⟨d3, d4, hps, hd3, hd4⟩ := isDigitPair_shape _ hds
  have hrl : renderLine e
      = '[' :: d1 :: d2 :: ':' :: d3 :: d4 :: ']' :: ' ' :: e.text := by
    simp [renderLine, hpm, hps]
  refine ⟨?_, ?_, ?_⟩
  · rw [hrl]
    simp only [matchesTimestampLine, hd1, hd2, hd3, hd4, Bool.true_and]
    rw [List.all_eq_true]
    intro c hc
    simpa using htext c hc
  · rw [hrl]; simp
  · intro c hc
    rw [hrl] at hc
    simp only [List.mem_cons] at hc
    rcases hc with rfl | rfl | rfl | rfl | rfl | rfl | rfl | rfl | hc
    · decide
    · exact isDigit_ne_newline _ hd1
    · exact isDigit_ne_newline _ hd2
    · decide
    · exact isDigit_ne_newline _ hd3
    · exact isDigit_ne_newline _ hd4
    · decide
    · decide
    · exact htext c hc

/-- **C8 (amended).**  For every sequence of transcript entries whose
texts contain no newline character and whose start offsets lie in
`[0, 6000)` seconds (minutes field at most 99), the output of
`format_timestamped` has exactly one line per entry, in entry order,
each line of the form `[MM:SS] text` with `MM = ⌊start / 60⌋` and
`SS = ⌊start⌋ mod 60` zero-padded to two digits, and every line
matches `^\[\d\x7b2\x7d:\d\x7b2\x7d\] .*$`.  (The unamended claim,
quantified over all entry sequences, fails: see the counterexample.) -/
theorem claim_C8 (ts : List TranscriptEntry)
    (h : ∀ e ∈ ts, (∀ c ∈ e.text, c ≠ '\n') ∧ 0 ≤ e.start ∧ e.start < 6000) :
    splitlines (format_timestamped ts)
      = ts.map (fun e => ['['] ++ pad02 ⌊e.start / 60⌋ ++ [':']
          ++ pad02 (⌊e.start⌋ % 60) ++ [']', ' '] ++ e.text) ∧
    (splitlines (format_timestamped ts)).length = ts.length ∧
    ∀ l ∈ splitlines (format_timestamped ts),
      matchesTimestampLine l = true := by
  have hsplit : splitlines (format_timestamped ts) = ts.map renderLine := by
    rw [format_timestamped]
    apply splitlines_joinLines
    intro l hl
    obtain ⟨e, he, rfl⟩ := List.mem_map.mp hl
    obtain ⟨ht, h0, h1⟩ := h e he
    have hp := renderLine_props e ht h0 h1
    exact ⟨hp.2.1, hp.2.2⟩
  have hfun : renderLine = fun e => ['['] ++ pad02 ⌊e.start / 60⌋ ++ [':']
      ++ pad02 (⌊e.start⌋ % 60) ++ [']', ' '] ++ e.text :=
    funext fun e => by
      simp [renderLine, minutesOf, secondsOf_eq_floor_mod]
  refine ⟨?_, ?_, ?_⟩
  · rw [hsplit, hfun]
  · rw [hsplit, List.length_map]
  · intro l hl
    rw [hsplit] at hl
    obtain ⟨e, he, rfl⟩ := List.mem_map.mp hl
    obtain ⟨ht, h0, h1⟩ := h e he
    exact (renderLine_props e ht h0 h1).1

/-- **C8 counterexample.**  For the single entry with text `"a\nb"`
and start offset 6000 s, `format_timestamped` renders
`"[100:00] a\nb"`: its line count is 2 (one entry), and its first
line `"[100:00] a"` has a three-digit minutes field, so the claimed
pattern fails. -/
theorem claim_C8_counterexample :
    (splitlines (format_timestamped [⟨['a', '\n', 'b'], 6000, 1⟩])).length
        ≠ ([⟨['a', '\n', 'b'], 6000, 1⟩] : List TranscriptEntry).length ∧
    ¬ (∀ l ∈ splitlines (format_timestamped [⟨['a', '\n', 'b'], 6000, 1⟩]),
        matchesTimestampLine l = true) := by
  have hm : minutesOf 6000 = 100 := by norm_num [minutesOf]
  have hs : secondsOf 6000 = 0 := by norm_num [secondsOf]
  have hft : format_timestamped [⟨['a', '\n', 'b'], 6000, 1⟩]
      = ['[', '1', '0', '0', ':', '0', '0', ']', ' ', 'a', '\n', 'b'] := by
    simp only [format_timestamped, List.map, joinLines, renderLine, hm, hs]
    decide
  rw [hft]
  constructor
  · decide
  · decide

/-! ## Lemmas about the fetcher retry loop -/

namespace TranscriptFetcher

theorem goLoop_step_success (o : Oracle) (useProxy : Bool) (maxR : Nat)
    (langs : List String) (fuel attempt : Nat) (le : Option String)
    (p s : Nat) (es : List TranscriptEntry) (lang : String) (g : Bool)
    (h : tryLanguages o attempt langs = .success es lang g) :
    goLoop o useProxy maxR langs (fuel + 1) attempt le p s
      = ({ success := true, transcript := some es,
           language_code := some lang, is_generated := some g,
           attempts := attempt }, p + 1, s) := by
  simp [goLoop, h]

theorem goLoop_step_notFound (o : Oracle) (useProxy : Bool) (maxR : Nat)
    (langs : List String) (fuel attempt : Nat) (le : Option String)
    (p s : Nat) (h : tryLanguages o attempt langs = .exnNotFound) :
    goLoop o useProxy maxR langs (fuel + 1) attempt le p s
      = ({ success := false, error := some "No transcript found",
           attempts := attempt }, p + 1, s) := by
  simp [goLoop, h]

theorem goLoop_step_disabled (o : Oracle) (useProxy : Bool) (maxR : Nat)
    (langs : List String) (fuel attempt : Nat) (le : Option String)
    (p s : Nat) (h : tryLanguages o attempt langs = .exnDisabled) :
    goLoop o useProxy maxR langs (fuel + 1) attempt le p s
      = ({ success := false, error := some "Transcripts disabled",
           attempts := attempt }, p + 1, s) := by
  simp [goLoop, h]

theorem goLoop_step_other_stop (o : Oracle) (useProxy : Bool) (maxR : Nat)
    (langs : List String) (fuel attempt : Nat) (le : Option String)
    (p s : Nat) (m : String)
    (h : tryLanguages o attempt langs = .exnOther m)
    (hstop : ¬(attempt < maxR ∧ useProxy = true)) :
    goLoop o useProxy maxR langs (fuel + 1) attempt le p s
      = (exhaustedResult maxR (some m), p + 1, s) := by
  simp [goLoop, h, hstop]

theorem goLoop_step_other_continue (o : Oracle) (useProxy : Bool)
    (maxR : Nat) (langs : List String) (fuel attempt : Nat)
    (le : Option String) (p s : Nat) (m : String)
    (h : tryLanguages o attempt langs = .exnOther m)
    (hcont : attempt < maxR ∧ useProxy = true) :
    goLoop o useProxy maxR langs (fuel + 1) attempt le p s
      = goLoop o useProxy maxR langs fuel (attempt + 1) (some m)
          (p + 1) (s + 1) := by
  simp [goLoop, h, hcont]

theorem tryLanguages_const (o : Oracle) (attempt : Nat) (m : String)
    (h : ∀ q, o attempt q = .otherError m) (langs : List String) :
    tryLanguages o attempt langs = .exnOther m := by
  cases langs <;> simp [tryLanguages, h]

theorem goLoop_all_transient (o : Oracle) (langs : List String)
    (msg : Nat → String) (maxR : Nat)
    (ht : ∀ k, tryLanguages o k langs = .exnOther (msg k)) :
    ∀ fuel attempt le p s, attempt + fuel = maxR + 1 → 1 ≤ fuel →
      goLoop o true maxR langs fuel attempt le p s
        = (exhaustedResult maxR (some (msg maxR)), p + fuel,
           s + (fuel - 1)) := by
  intro fuel
  induction fuel with
  | zero => intro attempt le p s _ hf; omega
  | succ f ihf =>
    intro attempt le p s hsum _
    by_cases hc : attempt < maxR
    · rw [goLoop_step_other_continue o true maxR langs f attempt le p s
        (msg attempt) (ht attempt) ⟨hc, rfl⟩]
      rw [ihf (attempt + 1) (some (msg attempt)) (p + 1) (s + 1) (by omega)
        (by omega)]
      simp only [Prod.mk.injEq]
      refine ⟨by trivial, by omega, by omega⟩
    · have ha : attempt = maxR := by omega
      rw [goLoop_step_other_stop o true maxR langs f attempt le p s
        (msg attempt) (ht attempt) (by simp [hc])]
      have hf0 : f = 0 := by omega
      simp [hf0, ha]

theorem tryLanguages_skip (o : Oracle) (attempt : Nat)
    (pre rest : List String)
    (h : ∀ l ∈ pre, o attempt (some l) = .noTranscriptFound) :
    tryLanguages o attempt (pre ++ rest) = tryLanguages o attempt rest := by
  induction pre with
  | nil => rfl
  | cons l pre ih =>
    have hl : o attempt (some l) = .noTranscriptFound :=
      h l (List.mem_cons_self l pre)
    rw [List.cons_append]
    simp only [tryLanguages, hl]
    exact ih (fun x hx => h x (List.mem_cons_of_mem l hx))

theorem tryLanguages_success_ok (o : Oracle) (attempt : Nat) :
    ∀ (langs : List String) (es : List TranscriptEntry) (lang : String)
      (g : Bool), tryLanguages o attempt langs = .success es lang g →
      ∃ q, o attempt q = .ok es := by
  intro langs
  induction langs with
  | nil =>
    intro es lang g h
    rcases ho : o attempt none with es' | _ | _ | m <;>
      simp only [tryLanguages, ho] at h
    · injection h with h1 h2 h3
      exact ⟨none, by rw [ho]; exact congrArg FetchOutcome.ok h1⟩
    · exact AttemptOutcome.noConfusion h
    · exact AttemptOutcome.noConfusion h
    · exact AttemptOutcome.noConfusion h
  | cons l rest ih =>
    intro es lang g h
    rcases ho : o attempt (some l) with es' | _ | _ | m <;>
      simp only [tryLanguages, ho] at h
    · injection h with h1 h2 h3
      exact ⟨some l, by rw [ho]; exact congrArg FetchOutcome.ok h1⟩
    · exact ih es lang g h
    · exact AttemptOutcome.noConfusion h
    · exact AttemptOutcome.noConfusion h

theorem goLoop_result_invariant (o : Oracle) (useProxy : Bool)
    (maxR : Nat) (langs : List String)
    (hok : ∀ n q es, o n q = .ok es → es ≠ []) :
    ∀ fuel attempt le p s,
      resultInvariant (goLoop o useProxy maxR langs fuel attempt le p s).1 := by
  intro fuel
  induction fuel with
  | zero =>
    intro attempt le p s
    exact ⟨fun h => by simp [goLoop, exhaustedResult] at h, fun _ => rfl⟩
  | succ f ih =>
    intro attempt le p s
    rcases htl : tryLanguages o attempt langs with ⟨es, lang, g⟩ | _ | _ | m
    · rw [goLoop_step_success o useProxy maxR langs f attempt le p s
        es lang g htl]
      obtain ⟨q, hq⟩ := tryLanguages_success_ok o attempt langs es lang g htl
      exact ⟨fun _ => ⟨⟨es, rfl, hok attempt q es hq⟩, rfl⟩,
        fun hf => by simp at hf⟩
    · rw [goLoop_step_notFound o useProxy maxR langs f attempt le p s htl]
      exact ⟨fun h => by simp at h, fun _ => rfl⟩
    · rw [goLoop_step_disabled o useProxy maxR langs f attempt le p s htl]
      exact ⟨fun h => by simp at h, fun _ => rfl⟩
    · by_cases hcond : attempt < maxR ∧ useProxy = true
      · rw [goLoop_step_other_continue o useProxy maxR langs f attempt
          le p s m htl hcond]
        exact ih (attempt + 1) (some m) (p + 1) (s + 1)
      · rw [goLoop_step_other_stop o useProxy maxR langs f attempt
          le p s m htl hcond]
        exact ⟨fun h => by simp [exhaustedResult] at h, fun _ => rfl⟩

theorem goLoop_terminal (o : Oracle) (langs : List String) (maxR n : Nat)
    (hterm : tryLanguages o n langs = .exnDisabled ∨
      tryLanguages o n langs = .exnNotFound) :
    ∀ d a fuel le p s, a + d = n → a + fuel = maxR + 1 → n ≤ maxR →
      (∀ k, a ≤ k → k < n → ∃ msg, tryLanguages o k langs = .exnOther msg) →
      ∃ r : TResult, goLoop o true maxR langs fuel a le p s
          = (r, p + d + 1, s + d)
        ∧ r.success = false ∧ r.attempts = n ∧ r.transcript = none := by
  intro d
  induction d with
  | zero =>
    intro a fuel le p s ha hfuel hn _
    have ha' : a = n := by omega
    obtain ⟨f, rfl⟩ : ∃ f, fuel = f + 1 := ⟨fuel - 1, by omega⟩
    subst ha'
    rcases hterm with hd | hnf
    · exact ⟨_, goLoop_step_disabled o true maxR langs f a le p s hd,
        rfl, rfl, rfl⟩
    · exact ⟨_, goLoop_step_notFound o true maxR langs f a le p s hnf,
        rfl, rfl, rfl⟩
  | succ d ih =>
    intro a fuel le p s ha hfuel hn htrans
    obtain ⟨msg, hmsg⟩ := htrans a le_rfl (by omega)
    obtain ⟨f, rfl⟩ : ∃ f, fuel = f + 1 := ⟨fuel - 1, by omega⟩
    rw [goLoop_step_other_continue o true maxR langs f a le p s msg hmsg
      ⟨by omega, rfl⟩]
    obtain ⟨r, heq, h1, h2, h3⟩ := ih (a + 1) f (some msg) (p + 1) (s + 1)
      (by omega) (by omega) hn
      (fun k hk1 hk2 => htrans k (by omega) hk2)
    refine ⟨r, ?_, h1, h2, h3⟩
    rw [heq]
    simp only [Prod.mk.injEq]
    exact ⟨by trivial, by omega, by omega⟩

end TranscriptFetcher

/-- **C8 witness.**  The amended theorem applied to one concrete
well-formed entry. -/
theorem claim_C8_witness :
    splitlines (format_timestamped [⟨['h', 'i'], 65, 2⟩])
      = [⟨['h', 'i'], 65, 2⟩].map
          (fun e : TranscriptEntry => ['['] ++ pad02 ⌊e.start / 60⌋
            ++ [':'] ++ pad02 (⌊e.start⌋ % 60) ++ [']', ' '] ++ e.text) ∧
    (splitlines (format_timestamped [⟨['h', 'i'], 65, 2⟩])).length
      = ([⟨['h', 'i'], 65, 2⟩] : List TranscriptEntry).length ∧
    ∀ l ∈ splitlines (format_timestamped [⟨['h', 'i'], 65, 2⟩]),
      matchesTimestampLine l = true :=
  claim_C8 [⟨['h', 'i'], 65, 2⟩] (by decide)

open TranscriptFetcher in
/-- **C1.**  If every attempt ends in a transient error (neither
`NoTranscriptFound` nor `TranscriptsDisabled`), with the error of
attempt `k` carrying message `msg k`, and MaxAttempts is 5
(`Config.MAX_RETRY_ATTEMPTS`), then `get_transcript` returns
`success=False`, `attempts=5`, and an error string mentioning the
message of the *last* attempt, `msg 5` — not that of any earlier
attempt. -/
theorem claim_C1 (o : Oracle) (msg : Nat → String) (langs : List String)
    (h : ∀ k, tryLanguages o k langs = AttemptOutcome.exnOther (msg k)) :
    (get_transcript o true Config.MAX_RETRY_ATTEMPTS langs).success
        = false ∧
    (get_transcript o true Config.MAX_RETRY_ATTEMPTS langs).attempts
        = 5 ∧
    (get_transcript o true Config.MAX_RETRY_ATTEMPTS langs).error
        = some ("Failed after 5 attempts. Last error: " ++ msg 5) := by
  have hres : get_transcript o true Config.MAX_RETRY_ATTEMPTS langs
      = exhaustedResult 5 (some (msg 5)) := by
    have hrun := goLoop_all_transient o langs msg 5 h 5 1 none 0 0
      (by omega) (by omega)
    simp only [get_transcript, get_transcript_instrumented,
      Config.MAX_RETRY_ATTEMPTS, hrun]
  rw [hres]
  exact ⟨rfl, rfl, rfl⟩

open TranscriptFetcher in
/-- **C1 witness.**  The theorem at a mocked upstream whose attempts
raise pairwise distinct messages `"err1" … "err5"`: the reported error
carries `"err5"`, the message of the fifth and last attempt. -/
theorem claim_C1_witness :
    (get_transcript (fun n _ => FetchOutcome.otherError ("err" ++ toString n))
        true Config.MAX_RETRY_ATTEMPTS ["bn"]).success = false ∧
    (get_transcript (fun n _ => FetchOutcome.otherError ("err" ++ toString n))
        true Config.MAX_RETRY_ATTEMPTS ["bn"]).attempts = 5 ∧
    (get_transcript (fun n _ => FetchOutcome.otherError ("err" ++ toString n))
        true Config.MAX_RETRY_ATTEMPTS ["bn"]).error
      = some ("Failed after 5 attempts. Last error: " ++ "err5") :=
  claim_C1 (fun n _ => FetchOutcome.otherError ("err" ++ toString n))
    (fun k => "err" ++ toString k) ["bn"] (fun _ => rfl)

open TranscriptFetcher in
/-- **C2.**  If on the first attempt the upstream raises
`NoTranscriptFound` for every language of a prefix of the priority
list and returns entries for the next language, `get_transcript`
succeeds with that language and `attempts = 1`, and executes exactly
one attempt: walking the language list never consumes retry budget. -/
theorem claim_C2 (o : Oracle) (useProxy : Bool) (maxR : Nat)
    (pre : List String) (l0 : String) (rest : List String)
    (es : List TranscriptEntry) (hm : 1 ≤ maxR)
    (hpre : ∀ l ∈ pre, o 1 (some l) = FetchOutcome.noTranscriptFound)
    (hl0 : o 1 (some l0) = FetchOutcome.ok es) :
    get_transcript o useProxy maxR (pre ++ l0 :: rest)
      = { success := true, transcript := some es,
          language_code := some l0, is_generated := some true,
          attempts := 1 } ∧
    (get_transcript_instrumented o useProxy maxR
        (pre ++ l0 :: rest)).2.1 = 1 := by
  have htry : tryLanguages o 1 (pre ++ l0 :: rest)
      = .success es l0 true := by
    rw [tryLanguages_skip o 1 pre (l0 :: rest) hpre]
    simp [tryLanguages, hl0, check_if_generated]
  obtain ⟨f, rfl⟩ : ∃ f, maxR = f + 1 := ⟨maxR - 1, by omega⟩
  have hrun := goLoop_step_success o useProxy (f + 1) (pre ++ l0 :: rest)
    f 1 none 0 0 es l0 true htry
  constructor <;>
    simp only [get_transcript, get_transcript_instrumented, hrun]

open TranscriptFetcher in
/-- **C2 witness.**  The theorem at the spec's concrete instance:
`NotFoundForLanguage` for `bn` and `en`, success for `hi`. -/
theorem claim_C2_witness :
    get_transcript
        (fun _ q => if q = some "hi" then FetchOutcome.ok [⟨['h'], 0, 1⟩]
          else FetchOutcome.noTranscriptFound) true 5
        (["bn", "en"] ++ "hi" :: [])
      = { success := true, transcript := some [⟨['h'], 0, 1⟩],
          language_code := some "hi", is_generated := some true,
          attempts := 1 } ∧
    (get_transcript_instrumented
        (fun _ q => if q = some "hi" then FetchOutcome.ok [⟨['h'], 0, 1⟩]
          else FetchOutcome.noTranscriptFound) true 5
        (["bn", "en"] ++ "hi" :: [])).2.1 = 1 :=
  claim_C2 _ true 5 ["bn", "en"] "hi" [] [⟨['h'], 0, 1⟩] (by omega)
    (by decide) (by decide)

open TranscriptFetcher in
/-- **C3.**  If attempts before `n` fail transiently and on attempt `n`
the upstream raises `TranscriptsDisabled` (or `NoTranscriptFound`
outside the per-language loop), `get_transcript` returns immediately:
`success=False`, `attempts = n`, and exactly `n` attempts executed,
regardless of the remaining retry budget. -/
theorem claim_C3 (o : Oracle) (langs : List String) (n maxR : Nat)
    (h1 : 1 ≤ n) (h2 : n ≤ maxR)
    (htrans : ∀ k, 1 ≤ k → k < n →
      ∃ msg, tryLanguages o k langs = AttemptOutcome.exnOther msg)
    (hterm : tryLanguages o n langs = AttemptOutcome.exnDisabled ∨
      tryLanguages o n langs = AttemptOutcome.exnNotFound) :
    (get_transcript o true maxR langs).success = false ∧
    (get_transcript o true maxR langs).attempts = n ∧
    (get_transcript_instrumented o true maxR langs).2.1 = n := by
  obtain ⟨r, heq, hsucc, hatt, _⟩ :=
    goLoop_terminal o langs maxR n hterm (n - 1) 1 maxR none 0 0
      (by omega) (by omega) h2 (fun k hk1 hk2 => htrans k hk1 hk2)
  refine ⟨?_, ?_, ?_⟩ <;>
    simp only [get_transcript, get_transcript_instrumented, heq]
  · exact hsucc
  · exact hatt
  · omega

open TranscriptFetcher in
/-- **C3 witness.**  `TranscriptsDisabled` on the very first call:
no retry, `attempts = 1`. -/
theorem claim_C3_witness :
    (get_transcript (fun _ _ => FetchOutcome.transcriptsDisabled) true 5
        ["bn"]).success = false ∧
    (get_transcript (fun _ _ => FetchOutcome.transcriptsDisabled) true 5
        ["bn"]).attempts = 1 ∧
    (get_transcript_instrumented
        (fun _ _ => FetchOutcome.transcriptsDisabled) true 5
        ["bn"]).2.1 = 1 :=
  claim_C3 (fun _ _ => FetchOutcome.transcriptsDisabled) ["bn"] 1 5
    (by omega) (by omega) (fun k hk1 hk2 => absurd hk2 (by omega))
    (Or.inl rfl)

open TranscriptFetcher in
/-- **C4 (amended).**  Provided every successful upstream fetch returns
a non-empty snippet list, every result of `get_transcript` satisfies
the `TranscriptResult` invariant: `success=True` implies the entries
list is present and non-empty and no error field is set, and
`success=False` implies no entries.  (Without that proviso the claim
fails on the code: see the counterexample, where an upstream success
with zero snippets yields `success=True` with empty entries.) -/
theorem claim_C4 (o : Oracle) (useProxy : Bool) (maxR : Nat)
    (langs : List String)
    (hok : ∀ n q es, o n q = FetchOutcome.ok es → es ≠ []) :
    resultInvariant (get_transcript o useProxy maxR langs) := by
  simp only [get_transcript, get_transcript_instrumented]
  exact goLoop_result_invariant o useProxy maxR langs hok maxR 1 none 0 0

open TranscriptFetcher in
/-- **C4 counterexample.**  With an upstream whose fetch succeeds with
an empty snippet list, `get_transcript` returns `success=True` with
`transcript = []`, violating "success implies entries non-empty". -/
theorem claim_C4_counterexample :
    (get_transcript (fun _ _ => FetchOutcome.ok []) true 5
        ["bn"]).success = true ∧
    (get_transcript (fun _ _ => FetchOutcome.ok []) true 5
        ["bn"]).transcript = some [] :=
  ⟨rfl, rfl⟩

open TranscriptFetcher in
/-- **C4 witness.**  The amended theorem at a concrete oracle whose
(vacuous) successes are non-empty. -/
theorem claim_C4_witness :
    resultInvariant (get_transcript
      (fun _ _ => FetchOutcome.otherError "x") true 5 ["bn"]) :=
  claim_C4 (fun _ _ => FetchOutcome.otherError "x") true 5 ["bn"]
    (fun _ _ _ h => FetchOutcome.noConfusion h)

open TranscriptFetcher in
/-- **C10.**  With proxy rotation disabled and a transient error on the
first attempt, `get_transcript` stops after that single attempt with no
backoff sleep, yet the returned failure reports
`attempts = Config.MAX_RETRY_ATTEMPTS` (5), not the single attempt
actually performed. -/
theorem claim_C10 (o : Oracle) (m : String) (langs : List String)
    (h : ∀ n q, o n q = FetchOutcome.otherError m) :
    (get_transcript_instrumented o false Config.MAX_RETRY_ATTEMPTS
        langs).2.1 = 1 ∧
    (get_transcript_instrumented o false Config.MAX_RETRY_ATTEMPTS
        langs).2.2 = 0 ∧
    (get_transcript o false Config.MAX_RETRY_ATTEMPTS langs).attempts
        = Config.MAX_RETRY_ATTEMPTS ∧
    (get_transcript o false Config.MAX_RETRY_ATTEMPTS langs).success
        = false := by
  have ht : ∀ k, tryLanguages o k langs = .exnOther m :=
    fun k => tryLanguages_const o k m (fun q => h k q) langs
  have hrun : goLoop o false 5 langs 5 1 none 0 0
      = (exhaustedResult 5 (some m), 1, 0) :=
    goLoop_step_other_stop o false 5 langs 4 1 none 0 0 m (ht 1) (by simp)
  refine ⟨?_, ?_, ?_, ?_⟩ <;>
    simp only [get_transcript, get_transcript_instrumented,
      Config.MAX_RETRY_ATTEMPTS, hrun] <;> rfl

open TranscriptFetcher in
/-- **C10 witness.**  The theorem at a concrete always-failing mocked
upstream with `use_proxy=False`. -/
theorem claim_C10_witness :
    (get_transcript_instrumented (fun _ _ => FetchOutcome.otherError "e")
        false Config.MAX_RETRY_ATTEMPTS ["bn"]).2.1 = 1 ∧
    (get_transcript_instrumented (fun _ _ => FetchOutcome.otherError "e")
        false Config.MAX_RETRY_ATTEMPTS ["bn"]).2.2 = 0 ∧
    (get_transcript (fun _ _ => FetchOutcome.otherError "e") false
        Config.MAX_RETRY_ATTEMPTS ["bn"]).attempts
      = Config.MAX_RETRY_ATTEMPTS ∧
    (get_transcript (fun _ _ => FetchOutcome.otherError "e") false
        Config.MAX_RETRY_ATTEMPTS ["bn"]).success = false :=
  claim_C10 (fun _ _ => FetchOutcome.otherError "e") "e" ["bn"]
    (fun _ _ => rfl)

/-! ## Lemmas about the cache -/

theorem findMostRecent_mem {α : Type} (ts : α → Int) :
    ∀ (l : List α) (x : α), findMostRecent ts l = some x → x ∈ l := by
  intro l
  induction l with
  | nil => intro x h; simp [findMostRecent] at h
  | cons a l ih =>
    intro x h
    simp only [findMostRecent] at h
    split at h
    · injection h with h'
      exact h' ▸ List.mem_cons_self a l
    · next y heq =>
      split at h
      · injection h with h'
        exact List.mem_cons_of_mem a (h' ▸ ih y heq)
      · injection h with h'
        exact h' ▸ List.mem_cons_self a l

theorem findMostRecent_nil_iff {α : Type} (ts : α → Int) (l : List α) :
    findMostRecent ts l = none ↔ l = [] := by
  cases l with
  | nil => simp [findMostRecent]
  | cons a l =>
    simp only [findMostRecent]
    rcases hrec : findMostRecent ts l with _ | y
    · simp
    · by_cases hlt : ts a < ts y <;> simp [hlt]

theorem insertByTsDesc_mem {α : Type} (ts : α → Int) (d : α) :
    ∀ (l : List α) (x : α), x ∈ insertByTsDesc ts d l → x = d ∨ x ∈ l := by
  intro l
  induction l with
  | nil =>
    intro x h
    simp [insertByTsDesc] at h
    exact Or.inl h
  | cons a l ih =>
    intro x h
    simp only [insertByTsDesc] at h
    by_cases hle : ts a ≤ ts d
    · rw [if_pos hle] at h
      rcases List.mem_cons.mp h with h' | h'
      · exact Or.inl h'
      · exact Or.inr h'
    · rw [if_neg hle] at h
      rcases List.mem_cons.mp h with h' | h'
      · exact Or.inr (h' ▸ List.mem_cons_self a l)
      · rcases ih x h' with h'' | h''
        · exact Or.inl h''
        · exact Or.inr (List.mem_cons_of_mem a h'')

theorem sortByTsDesc_mem {α : Type} (ts : α → Int) :
    ∀ (l : List α) (x : α), x ∈ sortByTsDesc ts l → x ∈ l := by
  intro l
  induction l with
  | nil => intro x h; simp [sortByTsDesc] at h
  | cons a l ih =>
    intro x h
    simp only [sortByTsDesc, List.foldr_cons] at h
    rcases insertByTsDesc_mem ts a _ x h with h' | h'
    · exact h' ▸ List.mem_cons_self a l
    · exact List.mem_cons_of_mem a (ih x h')

theorem sortByTsDesc_nil {α : Type} (ts : α → Int) :
    sortByTsDesc ts [] = [] := rfl

theorem limited_subset {α : Type} (maxr : Option Nat) (l : List α) (x : α)
    (h : x ∈ (match maxr with | some k => l.take k | none => l)) :
    x ∈ l := by
  cases maxr with
  | none => exact h
  | some k => exact List.take_subset k l h

/-- **C5.**  Cache reads enforce the per-entity staleness windows: a
channel entry is served only when its stored timestamp is within 7
days of `now` and any key whose entries are all older is a miss; a
video-listing entry only within 1 day; a transcript lookup hits
whenever any entry for the video id exists — whatever its age — and
misses only on absence. -/
theorem claim_C5 {A B C : Type} (st : CacheState A B C) (now : Int)
    (hen : st.enabled = true) :
    (∀ cid a, MongoDBCache.get_channel st now (some cid) none = some a →
      ∃ d ∈ st.channels, d.channel_id = cid ∧
        now - 7 * secondsPerDay ≤ d.timestamp ∧ d.data = a) ∧
    (∀ cid, (∀ d ∈ st.channels, d.channel_id = cid →
        d.timestamp < now - 7 * secondsPerDay) →
      MongoDBCache.get_channel st now (some cid) none = none) ∧
    (∀ cid maxr l, MongoDBCache.get_videos st now cid maxr = some l →
      l ≠ [] ∧ ∀ b ∈ l, ∃ d ∈ st.videos, d.channel_id = cid ∧
        now - secondsPerDay ≤ d.timestamp ∧ d.data = b) ∧
    (∀ cid maxr, (∀ d ∈ st.videos, d.channel_id = cid →
        d.timestamp < now - secondsPerDay) →
      MongoDBCache.get_videos st now cid maxr = none) ∧
    (∀ vid, (∃ d ∈ st.transcripts, d.video_id = vid) →
      ∃ c, MongoDBCache.get_transcript st vid = some c) ∧
    (∀ vid, (∀ d ∈ st.transcripts, d.video_id ≠ vid) →
      MongoDBCache.get_transcript st vid = none) := by
  refine ⟨?_, ?_, ?_, ?_, ?_, ?_⟩
  · intro cid a h
    simp only [MongoDBCache.get_channel, hen, Bool.not_true,
      Bool.false_eq_true, if_false, Option.map_eq_some'] at h
    obtain ⟨d, hd, hdata⟩ := h
    have hmem := findMostRecent_mem _ _ d hd
    rw [List.mem_filter] at hmem
    have hprop := of_decide_eq_true hmem.2
    exact ⟨d, hmem.1, hprop.1, hprop.2, hdata⟩
  · intro cid hstale
    simp only [MongoDBCache.get_channel, hen, Bool.not_true,
      Bool.false_eq_true, if_false]
    have hnil : st.channels.filter
        (fun d => decide (d.channel_id = cid ∧
          now - 7 * secondsPerDay ≤ d.timestamp)) = [] := by
      rw [List.filter_eq_nil_iff]
      intro d hd
      simp only [decide_eq_true_eq, not_and]
      intro hid
      have := hstale d hd hid
      omega
    rw [hnil]
    rfl
  · intro cid maxr l h
    simp only [MongoDBCache.get_videos, hen, Bool.not_true,
      Bool.false_eq_true, if_false] at h
    split at h
    · exact Option.noConfusion h
    · next hcond =>
      injection h with h'
      subst h'
      refine ⟨?_, ?_⟩
      · intro hnil
        rw [hnil] at hcond
        exact hcond rfl
      · intro b hb
        obtain ⟨d, hd, rfl⟩ := List.mem_map.mp hb
        have hd1 := limited_subset maxr _ d hd
        have hd2 := sortByTsDesc_mem _ _ d hd1
        rw [List.mem_filter] at hd2
        have hprop := of_decide_eq_true hd2.2
        exact ⟨d, hd2.1, hprop.1, by have := hprop.2; omega, rfl⟩
  · intro cid maxr hstale
    simp only [MongoDBCache.get_videos, hen, Bool.not_true,
      Bool.false_eq_true, if_false]
    have hnil : st.videos.filter
        (fun d => decide (d.channel_id = cid ∧
          now - 1 * secondsPerDay ≤ d.timestamp)) = [] := by
      rw [List.filter_eq_nil_iff]
      intro d hd
      simp only [decide_eq_true_eq, not_and]
      intro hid
      have := hstale d hd hid
      omega
    rw [hnil, sortByTsDesc_nil]
    cases maxr <;> simp
  · intro vid hex
    simp only [MongoDBCache.get_transcript, hen, Bool.not_true,
      Bool.false_eq_true, if_false]
    obtain ⟨d, hd, hid⟩ := hex
    have hne : st.transcripts.filter
        (fun d => decide (d.video_id = vid)) ≠ [] := by
      intro hnil
      have := List.filter_eq_nil_iff.mp hnil d hd
      simp [hid] at this
    rcases hrec : findMostRecent (fun d => d.timestamp)
        (st.transcripts.filter (fun d => decide (d.video_id = vid)))
      with _ | d'
    · exact absurd ((findMostRecent_nil_iff _ _).mp hrec) hne
    · exact ⟨d'.data, by rw [hrec]; rfl⟩
  · intro vid habs
    simp only [MongoDBCache.get_transcript, hen, Bool.not_true,
      Bool.false_eq_true, if_false]
    have hnil : st.transcripts.filter
        (fun d => decide (d.video_id = vid)) = [] := by
      rw [List.filter_eq_nil_iff]
      intro d hd
      simpa using habs d hd
    rw [hnil]
    rfl

/-- **C5 witness.**  The theorem applied to a concrete enabled cache
holding one transcript document stored 100 days in the past: the
conjunction instantiated there in particular makes that put a hit. -/
theorem claim_C5_witness :
    (∀ cid a, MongoDBCache.get_channel cacheW 0 (some cid) none = some a →
      ∃ d ∈ cacheW.channels, d.channel_id = cid ∧
        0 - 7 * secondsPerDay ≤ d.timestamp ∧ d.data = a) ∧
    (∀ cid, (∀ d ∈ cacheW.channels, d.channel_id = cid →
        d.timestamp < 0 - 7 * secondsPerDay) →
      MongoDBCache.get_channel cacheW 0 (some cid) none = none) ∧
    (∀ cid maxr l, MongoDBCache.get_videos cacheW 0 cid maxr = some l →
      l ≠ [] ∧ ∀ b ∈ l, ∃ d ∈ cacheW.videos, d.channel_id = cid ∧
        0 - secondsPerDay ≤ d.timestamp ∧ d.data = b) ∧
    (∀ cid maxr, (∀ d ∈ cacheW.videos, d.channel_id = cid →
        d.timestamp < 0 - secondsPerDay) →
      MongoDBCache.get_videos cacheW 0 cid maxr = none) ∧
    (∀ vid, (∃ d ∈ cacheW.transcripts, d.video_id = vid) →
      ∃ c, MongoDBCache.get_transcript cacheW vid = some c) ∧
    (∀ vid, (∀ d ∈ cacheW.transcripts, d.video_id ≠ vid) →
      MongoDBCache.get_transcript cacheW vid = none) :=
  claim_C5 cacheW 0 rfl

/-- **C6.**  If the backing-store connection test fails at
initialization, the cache is latched into degraded pass-through mode:
`enabled` is false, every get is a miss (`None`), every save returns
`False` leaving the state untouched (so no later operation can
re-enable it or reach the store), and `clear_old_cache` is a no-op.
All operations are total — nothing is raised to the caller. -/
theorem claim_C6 {A B C : Type} (useCache uriSet : Bool)
    (chs : List (ChannelDoc A)) (vids : List (VideoDoc B))
    (trs : List (TranscriptDoc C)) (now : Int) :
    (MongoDBCache.init useCache uriSet false chs vids trs).enabled
        = false ∧
    (∀ cid nm, MongoDBCache.get_channel
        (MongoDBCache.init useCache uriSet false chs vids trs) now cid nm
      = none) ∧
    (∀ cid maxr, MongoDBCache.get_videos
        (MongoDBCache.init useCache uriSet false chs vids trs) now cid maxr
      = none) ∧
    (∀ vid, MongoDBCache.get_transcript
        (MongoDBCache.init useCache uriSet false chs vids trs) vid
      = none) ∧
    (∀ getId getTitle d, MongoDBCache.save_channel getId getTitle
        (MongoDBCache.init useCache uriSet false chs vids trs) now d
      = (false, MongoDBCache.init useCache uriSet false chs vids trs)) ∧
    (∀ getVid cid vs, MongoDBCache.save_videos getVid
        (MongoDBCache.init useCache uriSet false chs vids trs) now cid vs
      = (false, MongoDBCache.init useCache uriSet false chs vids trs)) ∧
    (∀ vid d, MongoDBCache.save_transcript
        (MongoDBCache.init useCache uriSet false chs vids trs) now vid d
      = (false, MongoDBCache.init useCache uriSet false chs vids trs)) ∧
    (∀ days, MongoDBCache.clear_old_cache
        (MongoDBCache.init useCache uriSet false chs vids trs) now days
      = MongoDBCache.init useCache uriSet false chs vids trs) := by
  have hen : (MongoDBCache.init useCache uriSet false chs vids trs).enabled
      = false := by
    simp [MongoDBCache.init]
  refine ⟨hen, ?_, ?_, ?_, ?_, ?_, ?_, ?_⟩
  · intro cid nm
    simp [MongoDBCache.get_channel, hen]
  · intro cid maxr
    simp [MongoDBCache.get_videos, hen]
  · intro vid
    simp [MongoDBCache.get_transcript, hen]
  · intro getId getTitle d
    simp [MongoDBCache.save_channel, hen]
  · intro getVid cid vs
    simp [MongoDBCache.save_videos, hen]
  · intro vid d
    simp [MongoDBCache.save_transcript, hen]
  · intro days
    simp [MongoDBCache.clear_old_cache, hen]

/-! ## Lemmas about the proxy manager -/

namespace WebshareProxyManager

theorem is_cache_valid_cacheFile (st : PMState) (now dur : Int) :
    (is_cache_valid st now dur).2.cacheFile = st.cacheFile := by
  rcases st with ⟨ps, ci, lf, cf⟩
  cases lf with
  | none =>
    cases cf with
    | none => rfl
    | some x => obtain ⟨ps', t⟩ := x; rfl
  | some t => rfl

theorem get_next_proxy_nonempty (resp : HttpResponse) (now dur : Int)
    (st : PMState) (hne : st.proxies ≠ [])
    (hidx : st.current_index < st.proxies.length) :
    get_next_proxy resp now dur st
      = (some (formatProxy (st.proxies.get ⟨st.current_index, hidx⟩)),
         { st with
           current_index := (st.current_index + 1) % st.proxies.length }) := by
  have hie : st.proxies.isEmpty = false := by
    simp [List.isEmpty_iff, hne]
  simp only [get_next_proxy, hie, Bool.false_eq_true, if_false,
    List.getElem?_eq_getElem hidx, List.get_eq_getElem]

theorem nextStep_iterate (resp : HttpResponse) (now dur : Int)
    (ps : List Proxy) (hne : ps ≠ []) :
    ∀ k : Nat, (nextStep resp now dur)^[k]
        { proxies := ps, current_index := 0, last_fetch := none,
          cacheFile := none }
      = { proxies := ps, current_index := k % ps.length,
          last_fetch := none, cacheFile := none } := by
  have hlen : 0 < ps.length := List.length_pos.mpr hne
  intro k
  induction k with
  | zero => simp
  | succ k ih =>
    rw [Function.iterate_succ_apply', ih, nextStep,
      get_next_proxy_nonempty resp now dur _ hne (Nat.mod_lt k hlen)]
    simp [Nat.mod_add_mod]

end WebshareProxyManager

open WebshareProxyManager in
/-- **C7.**  Round-robin rotation: starting from a non-empty pool `ps`
with the cursor at 0 and no intervening pool refresh, the k-th call
(counting from 0) to `get_next_proxy` returns the formatted endpoint at
index `k mod ps.length`. -/
theorem claim_C7 (ps : List Proxy) (resp : HttpResponse) (now dur : Int)
    (k : Nat) (hne : ps ≠ []) :
    (get_next_proxy resp now dur
        ((nextStep resp now dur)^[k]
          { proxies := ps, current_index := 0, last_fetch := none,
            cacheFile := none })).1
      = (ps[k % ps.length]?).map formatProxy := by
  have hlen : 0 < ps.length := List.length_pos.mpr hne
  have hidx : k % ps.length < ps.length := Nat.mod_lt k hlen
  rw [nextStep_iterate resp now dur ps hne k,
    get_next_proxy_nonempty resp now dur _ hne hidx]
  simp [List.getElem?_eq_getElem hidx]

open WebshareProxyManager in
/-- **C7 witness.**  A pool of size 3: the 7th call (index 6) wraps
around to endpoint 0, completing the cycle [0,1,2,0,1,2,0]. -/
theorem claim_C7_witness :
    (get_next_proxy (HttpResponse.netError "x") 0 3600
        ((nextStep (HttpResponse.netError "x") 0 3600)^[6]
          { proxies := [⟨"h0", 80, "u", "pw", "US", "NY", true⟩,
              ⟨"h1", 80, "u", "pw", "US", "NY", true⟩,
              ⟨"h2", 80, "u", "pw", "US", "NY", true⟩],
            current_index := 0, last_fetch := none,
            cacheFile := none })).1
      = (([⟨"h0", 80, "u", "pw", "US", "NY", true⟩,
            ⟨"h1", 80, "u", "pw", "US", "NY", true⟩,
            ⟨"h2", 80, "u", "pw", "US", "NY", true⟩] :
              List Proxy)[6 % 3]?).map formatProxy :=
  claim_C7 [⟨"h0", 80, "u", "pw", "US", "NY", true⟩,
    ⟨"h1", 80, "u", "pw", "US", "NY", true⟩,
    ⟨"h2", 80, "u", "pw", "US", "NY", true⟩]
    (HttpResponse.netError "x") 0 3600 6 (by simp)

open WebshareProxyManager in
/-- **C9.**  When the request path is reached (forced refresh, or the
local cache judged invalid), an HTTP 401 — like any non-200 status —
yields an empty result immediately, with no retry and no fallback to
the cached list whatever the cache file holds; a transport error falls
back silently to the cached list when a non-empty one exists, and to
an empty result when the file is absent or holds an empty list. -/
theorem claim_C9 (st : PMState) (now dur : Int) (force : Bool)
    (hreach : force = true ∨ (is_cache_valid st now dur).1 = false) :
    (∀ code, (fetch_proxy_list (HttpResponse.status code) now dur force
        st).1 = []) ∧
    (∀ msg ps t, st.cacheFile = some (ps, t) → ps ≠ [] →
      (fetch_proxy_list (HttpResponse.netError msg) now dur force st).1
        = ps) ∧
    (∀ msg, st.cacheFile = none →
      (fetch_proxy_list (HttpResponse.netError msg) now dur force st).1
        = []) ∧
    (∀ msg t, st.cacheFile = some ([], t) →
      (fetch_proxy_list (HttpResponse.netError msg) now dur force st).1
        = []) := by
  have hfalse : (if force = true then (false, st)
      else is_cache_valid st now dur).1 = false := by
    cases force with
    | true => simp
    | false =>
      rcases hreach with h | h
      · exact absurd h (by simp)
      · simpa using h
  have hcf : (if force = true then (false, st)
      else is_cache_valid st now dur).2.cacheFile = st.cacheFile := by
    cases force with
    | true => simp
    | false => simp [is_cache_valid_cacheFile]
  refine ⟨?_, ?_, ?_, ?_⟩
  · intro code
    simp [fetch_proxy_list, hfalse]
  · intro msg ps t hfile hps
    simp [fetch_proxy_list, hfalse, load_cache, hcf, hfile,
      List.length_pos.mpr hps]
  · intro msg hfile
    simp [fetch_proxy_list, hfalse, load_cache, hcf, hfile]
  · intro msg t hfile
    simp [fetch_proxy_list, hfalse, load_cache, hcf, hfile]

open WebshareProxyManager in
/-- **C9 witness.**  The theorem at a forced refresh on a fresh state
whose cache file holds one stale proxy. -/
theorem claim_C9_witness :
    (∀ code, (fetch_proxy_list (HttpResponse.status code) 0 3600 true
        { proxies := [], current_index := 0, last_fetch := none,
          cacheFile := some ([⟨"h1", 80, "u", "pw", "US", "NY", true⟩],
            -10) }).1 = []) ∧
    (∀ msg ps t,
      ({ proxies := [], current_index := 0, last_fetch := none,
         cacheFile := some ([⟨"h1", 80, "u", "pw", "US", "NY", true⟩],
           -10) } : PMState).cacheFile = some (ps, t) → ps ≠ [] →
      (fetch_proxy_list (HttpResponse.netError msg) 0 3600 true
        { proxies := [], current_index := 0, last_fetch := none,
          cacheFile := some ([⟨"h1", 80, "u", "pw", "US", "NY", true⟩],
            -10) }).1 = ps) ∧
    (∀ msg,
      ({ proxies := [], current_index := 0, last_fetch := none,
         cacheFile := some ([⟨"h1", 80, "u", "pw", "US", "NY", true⟩],
           -10) } : PMState).cacheFile = none →
      (fetch_proxy_list (HttpResponse.netError msg) 0 3600 true
        { proxies := [], current_index := 0, last_fetch := none,
          cacheFile := some ([⟨"h1", 80, "u", "pw", "US", "NY", true⟩],
            -10) }).1 = []) ∧
    (∀ msg t,
      ({ proxies := [], current_index := 0, last_fetch := none,
         cacheFile := some ([⟨"h1", 80, "u", "pw", "US", "NY", true⟩],
           -10) } : PMState).cacheFile = some ([], t) →
      (fetch_proxy_list (HttpResponse.netError msg) 0 3600 true
        { proxies := [], current_index := 0, last_fetch := none,
          cacheFile := some ([⟨"h1", 80, "u", "pw", "US", "NY", true⟩],
            -10) }).1 = []) :=
  claim_C9
    { proxies := [], current_index := 0, last_fetch := none,
      cacheFile := some ([⟨"h1", 80, "u", "pw", "US", "NY", true⟩], -10) }
    0 3600 true (Or.inl rfl)

end YTB
